import Mathlib

/-!
Verification of the HealthPulse content pipeline: fingerprinting,
deduplication, keyword classification, importance scoring, and the
idempotent multi-recipient delivery loop.

The definitions below are a shallow embedding of the Python sources
(`src/processor/classifier.py`, `src/processor/summarizer.py`,
`src/processor/deduplicator.py`, `src/database/repository.py`,
`src/collector/naver_news.py`, `src/main.py`).  Text is modelled as
`List Char`, Python floats as `ℚ`, database state as explicit record
values threaded through the functions, and the external collaborators
(SMTP transport, Ollama backend, Sentence-BERT embedding model) as
function-valued parameters, so that every code path of the embedded
functions is the image of a code path of the source.
-/

namespace HealthPulse

/-- Text is a list of characters (a Python `str`). -/
abbrev Str := List Char

/-- Convert a Lean string literal to our text type. -/
def str (s : String) : Str := s.toList

/-- Whitespace characters removed by Python `str.strip()` (ASCII part). -/
def isSpaceChar (c : Char) : Bool :=
  c = ' ' || c = '\t' || c = '\n' || c = '\x0d' || c = '\x0b' || c = '\x0c'

/-- Python `str.strip()`: drop leading and trailing whitespace. -/
def pyStrip (s : Str) : Str :=
  ((s.dropWhile isSpaceChar).reverse.dropWhile isSpaceChar).reverse

/-- Python `str.lower()`, restricted to ASCII case folding (the character
sets appearing in this repository are ASCII and Korean; Korean syllables
have no case). -/
def pyLower (s : Str) : Str := s.map Char.toLower

/-- Python's substring test `needle in haystack`. -/
def pyIn (needle haystack : Str) : Bool :=
  decide (needle <:+: haystack)

/-! ## Classifier (`src/processor/classifier.py`) -/

/-- Article category enumeration (`CategoryType` in `src/database/models.py`),
constructors in source declaration order. -/
inductive CategoryType where
  | regulatory
  | market
  | technology
  | competitor
  | product
  | general
  deriving DecidableEq, Repr

/-- Position of a category in the declaration order of `CategoryType`,
which is also the priority order used for tie-breaking (regulatory first). -/
def CategoryType.pos : CategoryType → Nat
  | .regulatory => 0
  | .market => 1
  | .technology => 2
  | .competitor => 3
  | .product => 4
  | .general => 5

/-- The fixed keyword table `CATEGORY_KEYWORDS` of `classifier.py`;
`general` has no keywords (it is absent from the Python dict). -/
def CATEGORY_KEYWORDS : CategoryType → List Str
  | .regulatory =>
      [str "식약처", str "FDA", str "인허가", str "규제", str "승인", str "허가",
       str "의료기기법", str "임상시험 승인", str "품목허가", str "GMP",
       str "인증", str "CE마크", str "MFDS", str "규제 샌드박스",
       str "의료기기 심사", str "허가 심사"]
  | .market =>
      [str "시장", str "투자", str "M&A", str "IPO", str "인수", str "합병",
       str "펀딩", str "상장", str "시장규모", str "매출", str "성장률",
       str "투자유치", str "기업가치", str "시가총액", str "분기실적",
       str "매각", str "스타트업"]
  | .technology =>
      [str "임상시험", str "연구", str "개발", str "특허", str "기술", str "AI",
       str "신기술", str "바이오마커", str "유전자", str "진단기술",
       str "알고리즘", str "정확도", str "민감도", str "특이도", str "R&D",
       str "연구개발", str "논문", str "학회"]
  | .competitor =>
      [str "씨젠", str "SD바이오센서", str "수젠텍", str "래피젠", str "휴마시스",
       str "녹십자MS", str "바디텍메드", str "피씨엘", str "젠큐릭스",
       str "마크로젠", str "로슈", str "애보트", str "지멘스", str "다나허",
       str "써모피셔"]
  | .product =>
      [str "신제품", str "출시", str "런칭", str "제품", str "서비스",
       str "솔루션", str "키트", str "플랫폼", str "시스템", str "장비",
       str "기기", str "웨어러블", str "앱", str "어플리케이션", str "소프트웨어"]
  | .general => []

/-- Keyword-match score of one category against the (already lowered)
text: the number of table keywords `kw` with `kw.lower() in text`
(`scores[category] += 1` loop of `_classify_by_keywords`). -/
def keywordScore (c : CategoryType) (text : Str) : Nat :=
  (CATEGORY_KEYWORDS c).countP (fun kw => pyIn (pyLower kw) text)

/-- The iteration order of the `scores` dict built in
`_classify_by_keywords` (`for category in CategoryType`). -/
def categoryOrder : List CategoryType :=
  [.regulatory, .market, .technology, .competitor, .product, .general]

/-- Python's `max(scores, key=scores.get)` over the `scores` dict:
fold over the iteration order keeping the first key of maximal score
(the running best is replaced only on a strictly greater score). -/
def pyMaxCategory (s : CategoryType → Nat) : CategoryType :=
  (categoryOrder.tail).foldl (fun best c => if s c > s best then c else best)
    CategoryType.regulatory

/-- `ArticleClassifier._classify_by_keywords`: lower `title + " " + content`,
score every category by keyword matches, return the first maximal category,
or `general` when every score is zero. -/
def classifyByKeywords (title content : Str) : CategoryType :=
  let text := pyLower (title ++ [' '] ++ content)
  let scores := fun c => keywordScore c text
  let maxCategory := pyMaxCategory scores
  if scores maxCategory = 0 then CategoryType.general else maxCategory

/-- `ArticleClassifier.classify`.  The Ollama call of
`_classify_with_ollama` is an external collaborator; its outcome is the
parameter `aiResult` (`none` models a backend error or a reply without a
category digit, in which case the source returns `None` and falls
through to the keyword strategy). -/
def classify (available useOllama : Bool) (aiResult : Option CategoryType)
    (title content : Str) : CategoryType :=
  if available && useOllama then
    match aiResult with
    | some c => c
    | none => classifyByKeywords title content
  else classifyByKeywords title content

/-! ## Importance scorer (`src/processor/summarizer.py`) -/

/-- `high_keywords` of `OllamaSummarizer._fallback_importance`. -/
def high_keywords : List Str :=
  [str "fda", str "식약처", str "승인", str "인허가", str "규제", str "허가"]

/-- `medium_keywords` of `_fallback_importance`. -/
def medium_keywords : List Str :=
  [str "투자", str "m&a", str "인수", str "시장", str "임상", str "연구", str "특허"]

/-- `low_keywords` of `_fallback_importance`. -/
def low_keywords : List Str :=
  [str "행사", str "이벤트", str "인터뷰", str "기고"]

/-- `OllamaSummarizer._fallback_importance`: start from 0.5, add 0.1 per
high-impact keyword present in the lowered `title + " " + content`, add
0.05 per medium-impact keyword, subtract 0.1 per low-impact keyword,
clamp into [0, 1]. -/
def fallbackImportance (title content : Str) : ℚ :=
  let text := pyLower (title ++ [' '] ++ content)
  let s0 : ℚ := 1/2
  let s1 := high_keywords.foldl
    (fun s kw => if pyIn kw text then s + 1/10 else s) s0
  let s2 := medium_keywords.foldl
    (fun s kw => if pyIn kw text then s + 1/20 else s) s1
  let s3 := low_keywords.foldl
    (fun s kw => if pyIn kw text then s - 1/10 else s) s2
  min (max s3 0) 1

/-- First match of the regex `(\d+\.?\d*)` in a text, as a rational
(the Python code converts the matched literal with `float`).  Scans for
the first digit, takes the maximal digit run, an optional dot, and a
trailing digit run. -/
def extractFirstNumber : Str → Option ℚ
  | [] => none
  | c :: rest =>
    if c.isDigit then
      let intRun := (c :: rest).takeWhile Char.isDigit
      let afterInt := (c :: rest).dropWhile Char.isDigit
      let fracRun :=
        match afterInt with
        | '.' :: r => r.takeWhile Char.isDigit
        | _ => []
      let intVal : ℚ := (intRun.foldl (fun n d => n * 10 + (d.toNat - 48)) 0 : Nat)
      let fracVal : ℚ :=
        ((fracRun.foldl (fun n d => n * 10 + (d.toNat - 48)) 0 : Nat) : ℚ) /
          ((10 : ℚ) ^ fracRun.length)
      some (intVal + fracVal)
    else extractFirstNumber rest

/-- `OllamaSummarizer.score_importance`.  The Ollama generation call is
an external collaborator: `response` is `none` when the call raises
(the `except` path) and `some s` when it returns text `s`.  On the AI
path the first numeric literal of the stripped reply is clamped to
[0, 1]; every other path returns `_fallback_importance`. -/
def scoreImportance (available : Bool) (response : Option Str)
    (title content : Str) : ℚ :=
  if !available then fallbackImportance title content
  else
    match response with
    | none => fallbackImportance title content
    | some s =>
      match extractFirstNumber (pyStrip s) with
      | some q => min (max q 0) 1
      | none => fallbackImportance title content

/-! ## SHA-256 (`hashlib.sha256(...).hexdigest()` over UTF-8 bytes)

Faithful implementation of FIPS 180-4 SHA-256 on byte lists; 32-bit words
are naturals reduced modulo `2 ^ 32`. -/

/-- UTF-8 encoding of one character (Python `str.encode()`). -/
def utf8Char (c : Char) : List Nat :=
  let n := c.toNat
  if n < 128 then [n]
  else if n < 2048 then [192 + n / 64, 128 + n % 64]
  else if n < 65536 then [224 + n / 4096, 128 + (n / 64) % 64, 128 + n % 64]
  else [240 + n / 262144, 128 + (n / 4096) % 64, 128 + (n / 64) % 64, 128 + n % 64]

/-- UTF-8 encoding of a text. -/
def utf8Encode (s : Str) : List Nat := (s.map utf8Char).flatten

/-- Truncate to a 32-bit word. -/
def w32 (n : Nat) : Nat := n % 4294967296

/-- Right rotation of a 32-bit word. -/
def rotr (x n : Nat) : Nat := w32 ((x >>> n) ||| (x <<< (32 - n)))

/-- Bitwise complement of a 32-bit word. -/
def compl32 (x : Nat) : Nat := x ^^^ 4294967295

/-- SHA-256 `Ch` function. -/
def shaCh (x y z : Nat) : Nat := (x &&& y) ^^^ (compl32 x &&& z)

/-- SHA-256 `Maj` function. -/
def shaMaj (x y z : Nat) : Nat := (x &&& y) ^^^ (x &&& z) ^^^ (y &&& z)

/-- SHA-256 `Σ₀`. -/
def bigSigma0 (x : Nat) : Nat := rotr x 2 ^^^ rotr x 13 ^^^ rotr x 22

/-- SHA-256 `Σ₁`. -/
def bigSigma1 (x : Nat) : Nat := rotr x 6 ^^^ rotr x 11 ^^^ rotr x 25

/-- SHA-256 `σ₀`. -/
def smallSigma0 (x : Nat) : Nat := rotr x 7 ^^^ rotr x 18 ^^^ (x >>> 3)

/-- SHA-256 `σ₁`. -/
def smallSigma1 (x : Nat) : Nat := rotr x 17 ^^^ rotr x 19 ^^^ (x >>> 10)

/-- The 64 SHA-256 round constants. -/
def K256 : List Nat :=
  [1116352408, 1899447441, 3049323471, 3921009573, 961987163,
   1508970993, 2453635748, 2870763221, 3624381080, 310598401,
   607225278, 1426881987, 1925078388, 2162078206, 2614888103,
   3248222580, 3835390401, 4022224774, 264347078, 604807628,
   770255983, 1249150122, 1555081692, 1996064986, 2554220882,
   2821834349, 2952996808, 3210313671, 3336571891, 3584528711,
   113926993, 338241895, 666307205, 773529912, 1294757372,
   1396182291, 1695183700, 1986661051, 2177026350, 2456956037,
   2730485921, 2820302411, 3259730800, 3345764771, 3516065817,
   3600352804, 4094571909, 275423344, 430227734, 506948616,
   659060556, 883997877, 958139571, 1322822218, 1537002063,
   1747873779, 1955562222, 2024104815, 2227730452, 2361852424,
   2428436474, 2756734187, 3204031479, 3329325298]

/-- Big-endian byte decomposition of the 64-bit message bit length. -/
def lengthBytes64 (bitLen : Nat) : List Nat :=
  (List.range 8).map (fun i => (bitLen / 256 ^ (7 - i)) % 256)

/-- SHA-256 padding: append `0x80`, zero bytes up to 56 mod 64, then the
message bit length as 8 big-endian bytes. -/
def padMessage (msg : List Nat) : List Nat :=
  let zeros := (119 - msg.length % 64) % 64
  msg ++ 128 :: List.replicate zeros 0 ++ lengthBytes64 (msg.length * 8)

/-- Split a byte list into 64-byte blocks (structural recursion on a
fuel bound, so that the kernel can evaluate it). -/
def chunks64Go : Nat → List Nat → List (List Nat)
  | _, [] => []
  | 0, _ :: _ => []
  | fuel + 1, b :: rest => (b :: rest).take 64 :: chunks64Go fuel ((b :: rest).drop 64)

/-- Split a byte list into 64-byte blocks. -/
def chunks64 (l : List Nat) : List (List Nat) := chunks64Go l.length l

/-- Big-endian 32-bit words of a byte list. -/
def wordsOfBytes : List Nat → List Nat
  | b0 :: b1 :: b2 :: b3 :: rest =>
    (((b0 * 256 + b1) * 256 + b2) * 256 + b3) :: wordsOfBytes rest
  | _ => []

/-- Extend the 16 message words to the 64-entry message schedule. -/
def extendSchedule (w : List Nat) : List Nat :=
  (List.range 48).foldl (fun acc j =>
    let i := j + 16
    acc ++ [w32 (acc.getD (i - 16) 0 + smallSigma0 (acc.getD (i - 15) 0) +
                 acc.getD (i - 7) 0 + smallSigma1 (acc.getD (i - 2) 0))]) w

/-- The eight 32-bit working variables of the SHA-256 compression. -/
structure SHAState where
  a : Nat
  b : Nat
  c : Nat
  d : Nat
  e : Nat
  f : Nat
  g : Nat
  h : Nat

/-- Initial SHA-256 hash value. -/
def shaInit : SHAState :=
  ⟨1779033703, 3144134277, 1013904242, 2773480762,
   1359893119, 2600822924, 528734635, 1541459225⟩

/-- One SHA-256 compression step. -/
def shaRound (w : List Nat) (s : SHAState) (i : Nat) : SHAState :=
  let t1 := w32 (s.h + bigSigma1 s.e + shaCh s.e s.f s.g + K256.getD i 0 + w.getD i 0)
  let t2 := w32 (bigSigma0 s.a + shaMaj s.a s.b s.c)
  ⟨w32 (t1 + t2), s.a, s.b, s.c, w32 (s.d + t1), s.e, s.f, s.g⟩

/-- Compress one 64-byte block into the running hash state. -/
def compressBlock (hs : SHAState) (block : List Nat) : SHAState :=
  let w := extendSchedule (wordsOfBytes block)
  let s := (List.range 64).foldl (shaRound w) hs
  ⟨w32 (hs.a + s.a), w32 (hs.b + s.b), w32 (hs.c + s.c), w32 (hs.d + s.d),
   w32 (hs.e + s.e), w32 (hs.f + s.f), w32 (hs.g + s.g), w32 (hs.h + s.h)⟩

/-- SHA-256 digest of a byte list, as eight 32-bit words. -/
def sha256Words (msg : List Nat) : List Nat :=
  let s := (chunks64 (padMessage msg)).foldl compressBlock shaInit
  [s.a, s.b, s.c, s.d, s.e, s.f, s.g, s.h]

/-- Lower-case hexadecimal digit. -/
def hexDigitChar (n : Nat) : Char :=
  if n < 10 then Char.ofNat (48 + n) else Char.ofNat (87 + n)

/-- Eight-hex-digit rendering of a 32-bit word. -/
def toHex8 (n : Nat) : Str :=
  (List.range 8).map (fun i => hexDigitChar ((n / 16 ^ (7 - i)) % 16))

/-- `hashlib.sha256(bytes).hexdigest()`. -/
def sha256Hex (msg : List Nat) : Str :=
  ((sha256Words msg).map toHex8).flatten

/-! ## Content hashes -/

/-- `ArticleDeduplicator.compute_hash`: SHA-256 hex digest of
`f"{title}{content}".strip().lower()` encoded as UTF-8. -/
def compute_hash (title content : Str) : Str :=
  sha256Hex (utf8Encode (pyLower (pyStrip (title ++ content))))

/-- The content hash persisted with an Article: both
`NewsArticle.__post_init__` (`src/collector/naver_news.py`) and
`ArticleRepository.create` (`src/database/repository.py`) hash
`f"{title}{description}"` with no trimming or case folding. -/
def persistedContentHash (title description : Str) : Str :=
  sha256Hex (utf8Encode (title ++ description))

/-! ## Deduplicator (`src/processor/deduplicator.py`) -/

/-- Result record of `check_duplicate` (`DuplicateResult` dataclass;
the `matched_title` field is never set by `check_duplicate` and is
omitted). -/
structure DuplicateResult where
  is_duplicate : Bool
  similarity_score : ℚ
  matched_hash : Option Str
  deriving DecidableEq, Repr

/-- Fixed collaborators of one `ArticleDeduplicator` instance.  `Emb` is
the embedding-vector type; `available` is `self._model is not None`;
`encode` is the Sentence-BERT call inside `compute_embedding` (`none`
models the exception path); `sim` is `cosine_similarity`, whose value
(a float `dot/(norm*norm)`, zero when either norm is zero) is modelled
as a rational observation of the external numeric computation. -/
structure DedupConfig (Emb : Type) where
  available : Bool
  encode : Str → Option Emb
  sim : Emb → Emb → ℚ
  similarity_threshold : ℚ

/-- The in-run caches of one deduplicator instance
(`self._hash_cache`, `self._embedding_cache`). -/
structure DedupState (Emb : Type) where
  hashCache : List Str
  embCache : List (Str × Emb)

/-- `ArticleDeduplicator.compute_embedding`: `None` without a model,
otherwise the encoder's outcome (`none` on exception). -/
def computeEmbedding {Emb : Type} (cfg : DedupConfig Emb) (text : Str) :
    Option Emb :=
  if cfg.available then cfg.encode text else none

/-- The maximum-similarity scan of `check_duplicate`: running maximum
starting at 0.0 with `matched_hash = None`, updated on strictly greater
similarity. -/
def bestMatch {Emb : Type} (cfg : DedupConfig Emb) (newEmb : Emb)
    (l : List (Str × Emb)) : ℚ × Option Str :=
  l.foldl (fun acc p =>
    if cfg.sim newEmb p.2 > acc.1 then (cfg.sim newEmb p.2, some p.1) else acc)
    (0, none)

/-- `ArticleDeduplicator.check_duplicate`, state-passing: hash lookup in
the in-run cache, then in the caller-supplied window (a Python list whose
`None`/empty falsiness is the `isEmpty` test), then the semantic scan
when a model and prior embeddings exist; otherwise provisional
acceptance with the hash (and embedding, when computed) cached. -/
def checkDuplicate {Emb : Type} (cfg : DedupConfig Emb)
    (title content : Str) (existing_hashes : List Str)
    (existing_embeddings : List (Str × Emb)) (st : DedupState Emb) :
    DuplicateResult × DedupState Emb :=
  let new_hash := compute_hash title content
  if st.hashCache.contains new_hash then
    (⟨true, 1, some new_hash⟩, st)
  else if !existing_hashes.isEmpty && existing_hashes.contains new_hash then
    (⟨true, 1, some new_hash⟩, st)
  else if cfg.available && !existing_embeddings.isEmpty then
    match computeEmbedding cfg (title ++ [' '] ++ content) with
    | some newEmb =>
      let best := bestMatch cfg newEmb existing_embeddings
      if best.1 ≥ cfg.similarity_threshold then
        (⟨true, best.1, best.2⟩, st)
      else
        (⟨false, best.1, none⟩,
         ⟨new_hash :: st.hashCache, (new_hash, newEmb) :: st.embCache⟩)
    | none => (⟨false, 0, none⟩, ⟨new_hash :: st.hashCache, st.embCache⟩)
  else (⟨false, 0, none⟩, ⟨new_hash :: st.hashCache, st.embCache⟩)

/-! ## Delivery (`generate_and_send_reports` in `src/main.py`)

Timestamps enter the delivery queries only through calendar-day
comparisons (`collected_at >= today_start`, `sent_at >= today_start`),
so time is modelled at day granularity: a `Nat` day index. -/

/-- `SendResult` of `src/mailer/gmail_sender.py` (the recipient echo
field is omitted; it duplicates the argument). -/
structure SendResult where
  success : Bool
  error_message : Option Str

/-- An `articles` row, restricted to the columns the delivery step
reads. -/
structure ArticleRow where
  id : Nat
  is_processed : Bool
  is_duplicate : Bool
  collectedDay : Nat
  importance_score : ℚ
  deriving DecidableEq, Repr

/-- A `recipients` row, restricted to the columns the delivery step
reads. -/
structure RecipientRow where
  id : Nat
  email : Str
  name : Str
  is_active : Bool

/-- A `send_history` row (`SendHistory` model): the append-only audit
record written once per delivery attempt. -/
structure SendHistoryRow where
  recipient_id : Nat
  subject : Str
  article_count : Nat
  report_day : Nat
  is_success : Bool
  error_message : Option Str
  sent_day : Nat
  deriving DecidableEq, Repr

/-- Database state visible to the delivery step. -/
structure Db where
  articles : List ArticleRow
  recipients : List RecipientRow
  send_history : List SendHistoryRow

/-- Stable insertion (descending importance) for the
`order_by(importance_score.desc())` clause. -/
def insertByImportance (a : ArticleRow) : List ArticleRow → List ArticleRow
  | [] => [a]
  | b :: rest =>
    if b.importance_score ≥ a.importance_score then b :: insertByImportance a rest
    else a :: b :: rest

/-- Sort articles by importance score, descending. -/
def sortByImportanceDesc (l : List ArticleRow) : List ArticleRow :=
  l.foldr insertByImportance []

/-- `ArticleRepository.get_today_articles` with `processed_only=True`:
articles collected today (or later), not duplicates, processed, ordered
by importance descending. -/
def getTodayArticles (db : Db) (today : Nat) : List ArticleRow :=
  sortByImportanceDesc
    (((db.articles.filter
        (fun a => decide (today ≤ a.collectedDay) && !a.is_duplicate)).filter
      (fun a => a.is_processed)))

/-- `RecipientRepository.get_all_active`. -/
def getAllActive (db : Db) : List RecipientRow :=
  db.recipients.filter (fun r => r.is_active)

/-- `SendHistoryRepository.already_sent_today`: a send-history row for
this recipient with `sent_at >= today_start` and `is_success` exists. -/
def alreadySentToday (db : Db) (rid : Nat) (today : Nat) : Bool :=
  db.send_history.any
    (fun h => h.recipient_id == rid && decide (today ≤ h.sent_day) && h.is_success)

/-- Fixed collaborators of one delivery invocation: the current day, the
`sender.is_configured` flag, and the SMTP transport outcome per
recipient address (`GmailSender.send` never raises; it returns a
`SendResult` on every path). -/
structure DeliveryConfig where
  today : Nat
  is_configured : Bool
  transport : Str → SendResult

/-- Observable outcome of one delivery invocation: the returned
`sent_count`, the ids of recipients for which a transport send was
attempted, and the database state. -/
structure RunState where
  sent_count : Nat
  attempts : List Nat
  db : Db

/-- The email subject built for the report date. -/
def subjectFor (day : Nat) : Str :=
  str "HealthPulse daily briefing day " ++ Nat.toDigits 10 day

/-- The send-history row `SendHistoryRepository.create` appends for one
recipient: the transport outcome, the article count, the report date,
and `sent_at` defaulting to now (today). -/
def makeRecord (cfg : DeliveryConfig) (articleCount : Nat)
    (r : RecipientRow) : SendHistoryRow :=
  ⟨r.id, subjectFor cfg.today, articleCount, cfg.today,
   (cfg.transport r.email).success, (cfg.transport r.email).error_message,
   cfg.today⟩

/-- The per-recipient loop of `generate_and_send_reports`: skip when a
successful send-history row for today already exists, otherwise attempt
the transport send and unconditionally append the outcome row (the
created rows are flushed, so later iterations see them). -/
def deliverLoop (cfg : DeliveryConfig) (articleCount : Nat) :
    List RecipientRow → RunState → RunState
  | [], st => st
  | r :: rest, st =>
    if alreadySentToday st.db r.id cfg.today then
      deliverLoop cfg articleCount rest st
    else
      deliverLoop cfg articleCount rest
        ⟨(if (cfg.transport r.email).success then st.sent_count + 1
          else st.sent_count),
         st.attempts ++ [r.id],
         ⟨st.db.articles, st.db.recipients,
          st.db.send_history ++ [makeRecord cfg articleCount r]⟩⟩

/-- `generate_and_send_reports`: guard on mailer configuration, on
today's processed non-duplicate articles being non-empty, and on active
recipients being non-empty, then run the per-recipient loop. -/
def generateAndSendReports (cfg : DeliveryConfig) (db : Db) : RunState :=
  if !cfg.is_configured then ⟨0, [], db⟩
  else
    let articles := getTodayArticles db cfg.today
    if articles.isEmpty then ⟨0, [], db⟩
    else
      let recipients := getAllActive db
      if recipients.isEmpty then ⟨0, [], db⟩
      else deliverLoop cfg articles.length recipients ⟨0, [], db⟩

/-! ## Helper lemmas -/

/-- Right extension preserves infixes. -/
lemma IsInfix.append_right {α : Type} {l t : List α} (k : List α)
    (h : l <:+: t) : l <:+: t ++ k := by
  obtain ⟨s, r, hs⟩ := h
  exact ⟨s, r ++ k, by rw [← hs]; simp⟩

/-- Clamping into [0, 1] is monotone. -/
lemma clamp01_mono {x y : ℚ} (h : x ≤ y) : min (max x 0) 1 ≤ min (max y 0) 1 :=
  min_le_min (max_le_max h le_rfl) le_rfl

/-- The clamped value lies in [0, 1]. -/
lemma clamp01_range (x : ℚ) : 0 ≤ min (max x 0) 1 ∧ min (max x 0) 1 ≤ 1 :=
  ⟨le_min (le_max_right x 0) zero_le_one, min_le_right _ _⟩

/-- The fallback importance heuristic stays within [0, 1]. -/
lemma fallbackImportance_range (title content : Str) :
    0 ≤ fallbackImportance title content ∧ fallbackImportance title content ≤ 1 := by
  unfold fallbackImportance
  exact clamp01_range _

/-! ## C8: importance score range -/

/-- C8.  For every backend availability, every backend response
(including exceptions, modelled by `none`, and replies without a numeric
literal), and every title and content, `score_importance` returns a
value in [0.0, 1.0]: the AI path clamps the extracted literal and every
failure path returns the clamped keyword fallback. -/
theorem score_importance_range (available : Bool) (response : Option Str)
    (title content : Str) :
    0 ≤ scoreImportance available response title content ∧
      scoreImportance available response title content ≤ 1 := by
  rcases available with _ | _
  · exact fallbackImportance_range title content
  · rcases response with _ | s
    · exact fallbackImportance_range title content
    · rcases h : extractFirstNumber (pyStrip s) with _ | q
      · have hr : scoreImportance true (some s) title content =
            fallbackImportance title content := by
          simp [scoreImportance, h]
        rw [hr]; exact fallbackImportance_range title content
      · have hr : scoreImportance true (some s) title content =
            min (max q 0) 1 := by
          simp [scoreImportance, h]
        rw [hr]; exact clamp01_range q

/-! ## C7: fingerprint normalization -/

/-- C7.  `compute_hash` is deterministic and case/whitespace-insensitive:
any two (title, description) pairs whose concatenations agree after the
trim-and-case-fold normalization receive the identical fingerprint,
because only the normalized text is hashed. -/
theorem compute_hash_normalized (t₁ c₁ t₂ c₂ : Str)
    (h : pyLower (pyStrip (t₁ ++ c₁)) = pyLower (pyStrip (t₂ ++ c₂))) :
    compute_hash t₁ c₁ = compute_hash t₂ c₂ := by
  unfold compute_hash
  rw [h]

/-- C7 witness: `fingerprint("Title", "Desc")` equals
`fingerprint("title", "desc")`. -/
theorem compute_hash_normalized_witness :
    compute_hash (str "Title") (str "Desc") =
      compute_hash (str "title") (str "desc") :=
  compute_hash_normalized (str "Title") (str "Desc") (str "title") (str "desc")
    (by decide)

/-! ## C3: exact-duplicate detection -/

/-- C3.  When the fingerprint of (title, content) is contained in the
caller-supplied hash window and no embeddings are supplied,
`check_duplicate` reports an exact duplicate with similarity 1.0 and the
matched hash, leaves the caches untouched, and does so for every
embedding backend configuration — in particular without computing any
embedding. -/
theorem check_duplicate_exact {Emb : Type} (cfg : DedupConfig Emb)
    (st : DedupState Emb) (title content : Str) (hs : List Str)
    (h : compute_hash title content ∈ hs) :
    checkDuplicate cfg title content hs [] st =
      (⟨true, 1, some (compute_hash title content)⟩, st) := by
  by_cases h1 : compute_hash title content ∈ st.hashCache
  · simp [checkDuplicate, h1]
  · simp [checkDuplicate, h1, h, List.ne_nil_of_mem h]

/-- C3 witness: a concrete window containing the article's own
fingerprint triggers the exact branch. -/
theorem check_duplicate_exact_witness :
    checkDuplicate
        (⟨false, fun _ => none, fun _ _ => 0, 85/100⟩ : DedupConfig Unit)
        (str "t") (str "d") [compute_hash (str "t") (str "d")] [] ⟨[], []⟩ =
      (⟨true, 1, some (compute_hash (str "t") (str "d"))⟩, ⟨[], []⟩) :=
  check_duplicate_exact _ _ _ _ _ (List.mem_singleton.mpr rfl)

/-! ## C10: in-run cache invariant -/

/-- C10.  Whenever `check_duplicate` reports non-duplicate, the
article's fingerprint has been added to the in-run hash cache; any call
on a state whose cache holds that fingerprint reports an exact duplicate
with similarity 1.0 regardless of the supplied windows; and no call ever
removes a fingerprint from the cache — together: every subsequent call
with the same title and content on the same instance reports a
duplicate. -/
theorem check_duplicate_cache_invariant {Emb : Type} (cfg : DedupConfig Emb)
    (title content : Str) (hs : List Str) (embs : List (Str × Emb))
    (st : DedupState Emb)
    (h : (checkDuplicate cfg title content hs embs st).1.is_duplicate = false) :
    compute_hash title content ∈
        ((checkDuplicate cfg title content hs embs st).2).hashCache ∧
      (∀ (cfg₂ : DedupConfig Emb) (hs₂ : List Str) (embs₂ : List (Str × Emb))
          (st₂ : DedupState Emb), compute_hash title content ∈ st₂.hashCache →
        (checkDuplicate cfg₂ title content hs₂ embs₂ st₂).1 =
          ⟨true, 1, some (compute_hash title content)⟩) ∧
      (∀ (cfg₂ : DedupConfig Emb) (t₂ c₂ : Str) (hs₂ : List Str)
          (embs₂ : List (Str × Emb)) (st₂ : DedupState Emb),
        st₂.hashCache ⊆ ((checkDuplicate cfg₂ t₂ c₂ hs₂ embs₂ st₂).2).hashCache) := by
  refine ⟨?_, ?_, ?_⟩
  · by_cases h1 : compute_hash title content ∈ st.hashCache
    · simp [checkDuplicate, h1] at h
    · by_cases h2 : ¬hs = [] ∧ compute_hash title content ∈ hs
      · simp [checkDuplicate, h1, h2.1, h2.2] at h
      · by_cases h3 : cfg.available = true ∧ ¬embs = []
        · rcases hE : computeEmbedding cfg (title ++ ' ' :: content) with _ | emb
          · simp [checkDuplicate, h1, h2, h3.1, h3.2, hE]
          · by_cases h4 : cfg.similarity_threshold ≤ (bestMatch cfg emb embs).1
            · simp [checkDuplicate, h1, h2, h3.1, h3.2, hE, h4] at h
            · simp [checkDuplicate, h1, h2, h3.1, h3.2, hE, h4]
        · simp [checkDuplicate, h1, h2, h3]
  · intro cfg₂ hs₂ embs₂ st₂ hmem
    simp [checkDuplicate, hmem]
  · intro cfg₂ t₂ c₂ hs₂ embs₂ st₂
    by_cases h1 : compute_hash t₂ c₂ ∈ st₂.hashCache
    · simp [checkDuplicate, h1]
    · by_cases h2 : ¬hs₂ = [] ∧ compute_hash t₂ c₂ ∈ hs₂
      · simp [checkDuplicate, h1, h2.1, h2.2]
      · by_cases h3 : cfg₂.available = true ∧ ¬embs₂ = []
        · rcases hE : computeEmbedding cfg₂ (t₂ ++ ' ' :: c₂) with _ | emb
          · simp [checkDuplicate, h1, h2, h3.1, h3.2, hE, List.subset_cons_self]
          · by_cases h4 : cfg₂.similarity_threshold ≤ (bestMatch cfg₂ emb embs₂).1
            · simp [checkDuplicate, h1, h2, h3.1, h3.2, hE, h4]
            · simp [checkDuplicate, h1, h2, h3.1, h3.2, hE, h4,
                List.subset_cons_self]
        · simp [checkDuplicate, h1, h2, h3, List.subset_cons_self]

/-- C10 witness: a first check on a fresh instance with empty windows is
non-duplicate, and its fingerprint lands in the cache. -/
theorem check_duplicate_cache_invariant_witness :
    compute_hash (str "t") (str "d") ∈
      ((checkDuplicate
          (⟨false, fun _ => none, fun _ _ => 0, 85/100⟩ : DedupConfig Unit)
          (str "t") (str "d") [] [] ⟨[], []⟩).2).hashCache :=
  (check_duplicate_cache_invariant
      (⟨false, fun _ => none, fun _ _ => 0, 85/100⟩ : DedupConfig Unit)
      (str "t") (str "d") [] [] ⟨[], []⟩ (by rfl)).1

/-! ## C5: empty-content guard -/

/-- C5.  When no processed, non-duplicate article exists for the target
date, the delivery invocation attempts no transport send, creates no
send-history record, and leaves the whole database state unchanged. -/
theorem delivery_empty_guard (cfg : DeliveryConfig) (db : Db)
    (h : getTodayArticles db cfg.today = []) :
    generateAndSendReports cfg db = ⟨0, [], db⟩ := by
  unfold generateAndSendReports
  by_cases hc : cfg.is_configured
  · simp [hc, h]
  · simp [hc]

/-- C5 witness: an empty database yields an unchanged state. -/
theorem delivery_empty_guard_witness :
    generateAndSendReports ⟨0, true, fun _ => ⟨true, none⟩⟩ ⟨[], [], []⟩ =
      ⟨0, [], ⟨[], [], []⟩⟩ :=
  delivery_empty_guard _ _ rfl

/-! ## C1: idempotent delivery -/

/-- A successful send-history row for a recipient today makes
`already_sent_today` true. -/
lemma alreadySentToday_of_mem {db : Db} {rid today : Nat}
    {row : SendHistoryRow} (hmem : row ∈ db.send_history)
    (h1 : row.recipient_id = rid) (h2 : row.is_success = true)
    (h3 : today ≤ row.sent_day) :
    alreadySentToday db rid today = true := by
  unfold alreadySentToday
  refine List.any_eq_true.mpr ⟨row, hmem, ?_⟩
  simp [h1, h2, h3]

/-- `already_sent_today` survives appending rows (the audit log only
grows). -/
lemma alreadySentToday_append {db : Db} {rid today : Nat}
    (h : alreadySentToday db rid today = true) (extra : List SendHistoryRow) :
    alreadySentToday ⟨db.articles, db.recipients, db.send_history ++ extra⟩
      rid today = true := by
  unfold alreadySentToday at h ⊢
  simp only [List.any_append, Bool.or_eq_true]
  exact Or.inl h

/-- While a recipient id is flagged as already sent, the delivery loop
never attempts a send for it and never appends a send-history row for
it, whatever happens to the other recipients. -/
lemma deliverLoop_skips_sent (cfg : DeliveryConfig) (n rid : Nat) :
    ∀ (recips : List RecipientRow) (st : RunState),
      alreadySentToday st.db rid cfg.today = true →
      ∃ extraAtt extraRows,
        (deliverLoop cfg n recips st).attempts = st.attempts ++ extraAtt ∧
        rid ∉ extraAtt ∧
        (deliverLoop cfg n recips st).db.send_history =
          st.db.send_history ++ extraRows ∧
        ∀ row ∈ extraRows, row.recipient_id ≠ rid := by
  intro recips
  induction recips with
  | nil =>
    intro st _
    exact ⟨[], [], by simp [deliverLoop], by simp, by simp [deliverLoop], by simp⟩
  | cons r rest ih =>
    intro st hsent
    by_cases hskip : alreadySentToday st.db r.id cfg.today = true
    · have : deliverLoop cfg n (r :: rest) st = deliverLoop cfg n rest st := by
        simp [deliverLoop, hskip]
      rw [this]
      exact ih st hsent
    · have hne : r.id ≠ rid := fun he => hskip (he ▸ hsent)
      have hstep : deliverLoop cfg n (r :: rest) st =
          deliverLoop cfg n rest
            ⟨(if (cfg.transport r.email).success then st.sent_count + 1
              else st.sent_count),
             st.attempts ++ [r.id],
             ⟨st.db.articles, st.db.recipients,
              st.db.send_history ++ [makeRecord cfg n r]⟩⟩ := by
        simp [deliverLoop, hskip]
      rw [hstep]
      obtain ⟨extraAtt, extraRows, ha, hna, hh, hnh⟩ :=
        ih ⟨(if (cfg.transport r.email).success then st.sent_count + 1
             else st.sent_count),
            st.attempts ++ [r.id],
            ⟨st.db.articles, st.db.recipients,
             st.db.send_history ++ [makeRecord cfg n r]⟩⟩
          (alreadySentToday_append hsent [makeRecord cfg n r])
      refine ⟨r.id :: extraAtt, makeRecord cfg n r :: extraRows, ?_, ?_, ?_, ?_⟩
      · simpa [List.append_assoc] using ha
      · simp only [List.mem_cons, not_or]
        exact ⟨fun he => hne he.symm, hna⟩
      · simpa [List.append_assoc] using hh
      · intro row hrow
        rcases List.mem_cons.mp hrow with hrow | hrow
        · subst hrow; exact hne
        · exact hnh row hrow

/-- C1.  If after one delivery invocation a successful send-history row
exists for a recipient id with `sent_day` equal to that invocation's
calendar day, then a second invocation on the same day (with any
transport) attempts zero sends for that recipient and leaves that
recipient's send-history rows exactly as they were. -/
theorem delivery_idempotent (cfg cfg₂ : DeliveryConfig) (db : Db) (rid : Nat)
    (hday : cfg₂.today = cfg.today)
    (hrow : ∃ row ∈ ((generateAndSendReports cfg db).db).send_history,
      row.recipient_id = rid ∧ row.is_success = true ∧ row.sent_day = cfg.today) :
    rid ∉ (generateAndSendReports cfg₂ ((generateAndSendReports cfg db).db)).attempts ∧
    ((generateAndSendReports cfg₂
        ((generateAndSendReports cfg db).db)).db.send_history).filter
        (fun row => row.recipient_id == rid) =
      (((generateAndSendReports cfg db).db).send_history).filter
        (fun row => row.recipient_id == rid) := by
  obtain ⟨row, hmem, h1, h2, h3⟩ := hrow
  have halready :
      alreadySentToday ((generateAndSendReports cfg db).db) rid cfg₂.today = true :=
    alreadySentToday_of_mem hmem h1 h2 (by rw [hday, h3])
  set db₁ := (generateAndSendReports cfg db).db with hdb₁
  by_cases hc : cfg₂.is_configured = true
  · by_cases harts : (getTodayArticles db₁ cfg₂.today).isEmpty = true
    · have hrun : generateAndSendReports cfg₂ db₁ = ⟨0, [], db₁⟩ := by
        simp [generateAndSendReports, hc, harts]
      simp [hrun]
    · by_cases hrcp : (getAllActive db₁).isEmpty = true
      · have hrun : generateAndSendReports cfg₂ db₁ = ⟨0, [], db₁⟩ := by
          simp [generateAndSendReports, hc, harts, hrcp]
        simp [hrun]
      · have hrun : generateAndSendReports cfg₂ db₁ =
            deliverLoop cfg₂ (getTodayArticles db₁ cfg₂.today).length
              (getAllActive db₁) ⟨0, [], db₁⟩ := by
          simp [generateAndSendReports, hc, harts, hrcp]
        obtain ⟨extraAtt, extraRows, ha, hna, hh, hnh⟩ :=
          deliverLoop_skips_sent cfg₂ (getTodayArticles db₁ cfg₂.today).length rid
            (getAllActive db₁) ⟨0, [], db₁⟩ halready
        rw [hrun]
        constructor
        · rw [ha]; simpa using hna
        · rw [hh, List.filter_append]
          have hnil : extraRows.filter (fun row => row.recipient_id == rid) = [] := by
            refine List.filter_eq_nil_iff.mpr ?_
            intro row hrow
            simp [hnh row hrow]
          rw [hnil, List.append_nil]
  · have hrun : generateAndSendReports cfg₂ db₁ = ⟨0, [], db₁⟩ := by
      simp only [generateAndSendReports]
      rw [if_pos]
      simp [Bool.not_eq_true] at hc
      simp [hc]
    simp [hrun]

/-- C1 witness: after a successful first run for the single active
recipient (id 7) on day 5, a second run the same day attempts no send
for that recipient. -/
theorem delivery_idempotent_witness :
    (7 : Nat) ∉ (generateAndSendReports ⟨5, true, fun _ => ⟨true, none⟩⟩
        ((generateAndSendReports ⟨5, true, fun _ => ⟨true, none⟩⟩
            ⟨[⟨1, true, false, 5, 1/2⟩], [⟨7, str "a", str "n", true⟩],
              []⟩).db)).attempts :=
  (delivery_idempotent ⟨5, true, fun _ => ⟨true, none⟩⟩
      ⟨5, true, fun _ => ⟨true, none⟩⟩
      ⟨[⟨1, true, false, 5, 1/2⟩], [⟨7, str "a", str "n", true⟩], []⟩ 7 rfl
      (by decide)).1

/-! ## C2: partial-failure isolation -/

/-- Appending one row for a different recipient preserves
`already_sent_today = false`. -/
lemma alreadySentToday_append_single {db : Db} {rid today : Nat}
    (row : SendHistoryRow) (h : alreadySentToday db rid today = false)
    (hne : row.recipient_id ≠ rid) :
    alreadySentToday ⟨db.articles, db.recipients, db.send_history ++ [row]⟩
      rid today = false := by
  unfold alreadySentToday at h ⊢
  rw [List.any_eq_false] at h ⊢
  intro x hx
  rcases List.mem_append.mp hx with hx | hx
  · exact h x hx
  · rcases List.mem_singleton.mp hx with rfl
    simp [hne]

/-- When no recipient in the list has been sent to today and their ids
are pairwise distinct, the delivery loop attempts every recipient in
order, appends exactly one outcome row per recipient, and counts the
successes. -/
lemma deliverLoop_fresh (cfg : DeliveryConfig) (n : Nat) :
    ∀ (recips : List RecipientRow) (st : RunState),
      (∀ r ∈ recips, alreadySentToday st.db r.id cfg.today = false) →
      List.Pairwise (fun a b => a.id ≠ b.id) recips →
      deliverLoop cfg n recips st =
        ⟨st.sent_count +
            recips.countP (fun r => (cfg.transport r.email).success),
         st.attempts ++ recips.map (fun r => r.id),
         ⟨st.db.articles, st.db.recipients,
          st.db.send_history ++ recips.map (makeRecord cfg n)⟩⟩ := by
  intro recips
  induction recips with
  | nil => intro st _ _; simp [deliverLoop]
  | cons r rest ih =>
    intro st hfresh hpair
    have hskip : alreadySentToday st.db r.id cfg.today = false :=
      hfresh r (List.mem_cons_self r rest)
    have hstep : deliverLoop cfg n (r :: rest) st =
        deliverLoop cfg n rest
          ⟨(if (cfg.transport r.email).success then st.sent_count + 1
            else st.sent_count),
           st.attempts ++ [r.id],
           ⟨st.db.articles, st.db.recipients,
            st.db.send_history ++ [makeRecord cfg n r]⟩⟩ := by
      simp [deliverLoop, hskip]
    have hfresh' : ∀ r' ∈ rest,
        alreadySentToday
          (⟨st.db.articles, st.db.recipients,
            st.db.send_history ++ [makeRecord cfg n r]⟩ : Db)
          r'.id cfg.today = false := by
      intro r' hr'
      exact alreadySentToday_append_single _
        (hfresh r' (List.mem_cons_of_mem r hr'))
        ((List.pairwise_cons.mp hpair).1 r' hr')
    rw [hstep, ih ⟨(if (cfg.transport r.email).success then st.sent_count + 1
          else st.sent_count),
         st.attempts ++ [r.id],
         ⟨st.db.articles, st.db.recipients,
          st.db.send_history ++ [makeRecord cfg n r]⟩⟩
        hfresh' (List.pairwise_cons.mp hpair).2]
    rcases hsucc : (cfg.transport r.email).success with _ | _ <;>
      (simp [hsucc, List.countP_cons, List.append_assoc]; try omega)

/-- C2.  For a run whose active recipients split as
`pre ++ rk :: post`, all eligible (no prior success today, distinct
ids), where the transport succeeds on `pre` and `post` and fails on
`rk`: exactly one send-history row is appended per recipient in order,
exactly one of them is marked failed, the failed one belongs to `rk` and
carries the transport's error detail, and every recipient — including
those after `rk` — is attempted (the loop continues past the failure;
`GmailSender.send` returns rather than raises on failure). -/
theorem delivery_partial_failure (cfg : DeliveryConfig) (db : Db)
    (pre post : List RecipientRow) (rk : RecipientRow)
    (hconf : cfg.is_configured = true)
    (harts : getTodayArticles db cfg.today ≠ [])
    (hsplit : getAllActive db = pre ++ rk :: post)
    (hfresh : ∀ r ∈ getAllActive db, alreadySentToday db r.id cfg.today = false)
    (hids : (getAllActive db).Pairwise (fun a b => a.id ≠ b.id))
    (hok₁ : ∀ r ∈ pre, (cfg.transport r.email).success = true)
    (hok₂ : ∀ r ∈ post, (cfg.transport r.email).success = true)
    (hfail : (cfg.transport rk.email).success = false) :
    ((generateAndSendReports cfg db).db.send_history).drop
        db.send_history.length =
      (pre ++ rk :: post).map
        (makeRecord cfg (getTodayArticles db cfg.today).length) ∧
    (((generateAndSendReports cfg db).db.send_history).drop
        db.send_history.length).length = pre.length + 1 + post.length ∧
    (((generateAndSendReports cfg db).db.send_history).drop
        db.send_history.length).countP (fun row => !row.is_success) = 1 ∧
    (∀ row ∈ ((generateAndSendReports cfg db).db.send_history).drop
        db.send_history.length, row.is_success = false →
      row.recipient_id = rk.id ∧
        row.error_message = (cfg.transport rk.email).error_message) ∧
    (generateAndSendReports cfg db).attempts =
      (pre ++ rk :: post).map (fun r => r.id) := by
  have hne : getAllActive db ≠ [] := by
    rw [hsplit]
    intro h
    exact List.cons_ne_nil rk post (List.append_eq_nil.mp h).2
  have hrun : generateAndSendReports cfg db =
      deliverLoop cfg (getTodayArticles db cfg.today).length
        (getAllActive db) ⟨0, [], db⟩ := by
    simp [generateAndSendReports, hconf, List.isEmpty_iff, harts, hne]
  rw [hrun, deliverLoop_fresh cfg (getTodayArticles db cfg.today).length
    (getAllActive db) ⟨0, [], db⟩ hfresh hids]
  simp only [hsplit, List.drop_left]
  refine ⟨trivial, ?_, ?_, ?_, ?_⟩
  · simp only [List.length_map, List.length_append, List.length_cons]
    omega
  · rw [List.countP_map]
    have hpre : pre.countP ((fun row => !row.is_success) ∘
        makeRecord cfg (getTodayArticles db cfg.today).length) = 0 :=
      List.countP_eq_zero.mpr (fun r hr => by simp [makeRecord, hok₁ r hr])
    have hpost : post.countP ((fun row => !row.is_success) ∘
        makeRecord cfg (getTodayArticles db cfg.today).length) = 0 :=
      List.countP_eq_zero.mpr (fun r hr => by simp [makeRecord, hok₂ r hr])
    simp [List.countP_append, List.countP_cons, hpre, hpost, makeRecord, hfail]
  · intro row hrow hfalse
    obtain ⟨r, hr, rfl⟩ := List.mem_map.mp hrow
    have hsucc : (cfg.transport r.email).success = false := hfalse
    rcases List.mem_append.mp hr with h | h
    · rw [hok₁ r h] at hsucc; cases hsucc
    · rcases List.mem_cons.mp h with rfl | h
      · exact ⟨rfl, rfl⟩
      · rw [hok₂ r h] at hsucc; cases hsucc
  · rfl

/-- C2 witness: three fresh recipients on day 0 where the transport
fails only for the middle one (email "b"): three rows are appended, one
is failed, and all three recipients are attempted. -/
theorem delivery_partial_failure_witness :
    ((generateAndSendReports
        ⟨0, true, fun e => if e = str "b" then ⟨false, some (str "boom")⟩
          else ⟨true, none⟩⟩
        ⟨[⟨1, true, false, 0, 1/2⟩],
         [⟨1, str "a", str "A", true⟩, ⟨2, str "b", str "B", true⟩,
          ⟨3, str "c", str "C", true⟩], []⟩).db.send_history).length = 3 ∧
    ((generateAndSendReports
        ⟨0, true, fun e => if e = str "b" then ⟨false, some (str "boom")⟩
          else ⟨true, none⟩⟩
        ⟨[⟨1, true, false, 0, 1/2⟩],
         [⟨1, str "a", str "A", true⟩, ⟨2, str "b", str "B", true⟩,
          ⟨3, str "c", str "C", true⟩], []⟩).db.send_history).countP
        (fun row => !row.is_success) = 1 ∧
    (generateAndSendReports
        ⟨0, true, fun e => if e = str "b" then ⟨false, some (str "boom")⟩
          else ⟨true, none⟩⟩
        ⟨[⟨1, true, false, 0, 1/2⟩],
         [⟨1, str "a", str "A", true⟩, ⟨2, str "b", str "B", true⟩,
          ⟨3, str "c", str "C", true⟩], []⟩).attempts = [1, 2, 3] := by
  have h := delivery_partial_failure
    ⟨0, true, fun e => if e = str "b" then ⟨false, some (str "boom")⟩
      else ⟨true, none⟩⟩
    ⟨[⟨1, true, false, 0, 1/2⟩],
     [⟨1, str "a", str "A", true⟩, ⟨2, str "b", str "B", true⟩,
      ⟨3, str "c", str "C", true⟩], []⟩
    [⟨1, str "a", str "A", true⟩] [⟨3, str "c", str "C", true⟩]
    ⟨2, str "b", str "B", true⟩ rfl (by decide) rfl (by decide) (by decide)
    (by decide) (by decide) (by decide)
  refine ⟨?_, ?_, ?_⟩
  · have h2 := h.2.1
    simpa using h2
  · have h3 := h.2.2.1
    simpa using h3
  · have h5 := h.2.2.2.2
    simpa using h5

/-! ## C4: keyword-fallback classification -/

/-- `max(scores, key=scores.get)` returns a key of maximal score. -/
lemma pyMaxCategory_le (s : CategoryType → Nat) :
    ∀ c, s c ≤ s (pyMaxCategory s) := by
  intro c
  simp only [pyMaxCategory, categoryOrder, List.tail_cons, List.foldl_cons,
    List.foldl_nil]
  split_ifs <;> cases c <;> omega

/-- `max(scores, key=scores.get)` returns the first key of maximal score
in the `CategoryType` declaration order. -/
lemma pyMaxCategory_first (s : CategoryType → Nat) :
    ∀ c, s c = s (pyMaxCategory s) →
      (pyMaxCategory s).pos ≤ c.pos := by
  intro c
  simp only [pyMaxCategory, categoryOrder, List.tail_cons, List.foldl_cons,
    List.foldl_nil]
  split_ifs <;> cases c <;> simp only [CategoryType.pos] <;> omega

/-- The `general` category has no keywords, hence always scores zero. -/
lemma keywordScore_general (text : Str) :
    keywordScore CategoryType.general text = 0 := rfl

/-- C4.  With the AI backend unavailable, `classify` returns a category
of maximal keyword score; every category scoring zero yields `general`
(and conversely `general` is returned only then); and whenever the
returned score is non-zero, the returned category is the earliest, in
the priority order regulatory > market > technology > competitor >
product, among all categories attaining the maximal score. -/
theorem classify_keyword_fallback (useOllama : Bool)
    (aiResult : Option CategoryType) (title content : Str) :
    (∀ c, keywordScore c (pyLower (title ++ [' '] ++ content)) ≤
        keywordScore (classify false useOllama aiResult title content)
          (pyLower (title ++ [' '] ++ content))) ∧
    ((∀ c, keywordScore c (pyLower (title ++ [' '] ++ content)) = 0) ↔
        classify false useOllama aiResult title content =
          CategoryType.general) ∧
    (keywordScore (classify false useOllama aiResult title content)
        (pyLower (title ++ [' '] ++ content)) ≠ 0 →
      ∀ c, keywordScore c (pyLower (title ++ [' '] ++ content)) =
          keywordScore (classify false useOllama aiResult title content)
            (pyLower (title ++ [' '] ++ content)) →
        (classify false useOllama aiResult title content).pos ≤ c.pos) := by
  have hcl : classify false useOllama aiResult title content =
      classifyByKeywords title content := rfl
  rw [hcl]
  set text := pyLower (title ++ [' '] ++ content) with htext
  set s := fun c => keywordScore c text with hs
  have hunf : classifyByKeywords title content =
      if s (pyMaxCategory s) = 0 then CategoryType.general
      else pyMaxCategory s := rfl
  rw [hunf]
  by_cases h0 : s (pyMaxCategory s) = 0
  · rw [if_pos h0]
    have hall : ∀ c, s c = 0 := fun c =>
      Nat.le_zero.mp (h0 ▸ pyMaxCategory_le s c)
    refine ⟨?_, ?_, ?_⟩
    · intro c
      have hc := hall c
      simp only [hs] at hc
      rw [hc]
      exact Nat.zero_le _
    · exact ⟨fun _ => rfl, fun _ => hall⟩
    · intro hgen
      rw [keywordScore_general] at hgen
      cases hgen rfl
  · rw [if_neg h0]
    refine ⟨pyMaxCategory_le s, ?_, fun _ => pyMaxCategory_first s⟩
    constructor
    · intro hall
      exact absurd (hall (pyMaxCategory s)) h0
    · intro hgen
      rw [hgen] at h0
      exact absurd (keywordScore_general text) h0

/-- C4 witness: the spec example — a regulatory-keyword title with
regulatory-keyword content scores at least as high as every other
category (instantiated at `general`). -/
theorem classify_keyword_fallback_witness :
    keywordScore CategoryType.general
        (pyLower (str "식약처, 승인" ++ [' '] ++ str "허가")) ≤
      keywordScore (classify false true none (str "식약처, 승인") (str "허가"))
        (pyLower (str "식약처, 승인" ++ [' '] ++ str "허가")) :=
  (classify_keyword_fallback true none (str "식약처, 승인") (str "허가")).1
    CategoryType.general

/-! ## C6: importance-heuristic monotonicity -/

/-- `countP` only depends on the predicate's values on the list. -/
lemma countP_congr_mem {α : Type} {p q : α → Bool} :
    ∀ {l : List α}, (∀ a ∈ l, p a = q a) → l.countP p = l.countP q := by
  intro l
  induction l with
  | nil => intro _; rfl
  | cons a rest ih =>
    intro h
    rw [List.countP_cons, List.countP_cons, h a (List.mem_cons_self a rest),
      ih (fun x hx => h x (List.mem_cons_of_mem a hx))]

/-- Decomposition of an infix of an append: the pattern lies in the
left part, lies in the right part, or straddles the boundary with a
nonempty suffix of the pattern prefixing the right part. -/
lemma infix_append_cases {α : Type} {l t k : List α} (h : l <:+: t ++ k) :
    l <:+: t ∨ l <:+: k ∨ ∃ l₁ l₂, l = l₁ ++ l₂ ∧ l₂ ≠ [] ∧ l₂ <+: k := by
  obtain ⟨s, r, hsr⟩ := h
  rw [List.append_assoc] at hsr
  rcases List.append_eq_append_iff.mp hsr with ⟨a, ha1, ha2⟩ | ⟨c, hc1, hc2⟩
  · rcases List.append_eq_append_iff.mp ha2 with ⟨b, hb1, hb2⟩ | ⟨d, hd1, hd2⟩
    · left
      exact ⟨s, b, by rw [ha1, hb1, List.append_assoc]⟩
    · by_cases hd : d = []
      · left
        subst hd
        rw [List.append_nil] at hd1
        exact ⟨s, [], by rw [ha1, ← hd1]; simp⟩
      · right; right
        exact ⟨a, d, hd1, hd, ⟨r, hd2.symm⟩⟩
  · right; left
    exact ⟨c, r, by rw [hc2, List.append_assoc]⟩

/-- Boundary-overlap test between a pattern `l` and an appended block
`k`: `l` occurs inside `k`, or some nonempty suffix of `l` is a prefix
of `k`.  When it is false, appending `k` cannot create a new occurrence
of `l`. -/
def overlapsB (l k : Str) : Bool :=
  decide (l <:+: k) ||
    l.tails.any (fun l₂ => !l₂.isEmpty && List.isPrefixOf l₂ k)

/-- Without boundary overlap, an occurrence in `t ++ k` is an
occurrence in `t`. -/
lemma infix_of_infix_append_of_no_overlap {l t k : Str}
    (hov : overlapsB l k = false) (h : l <:+: t ++ k) : l <:+: t := by
  rcases infix_append_cases h with h | h | ⟨l₁, l₂, hl, hne, hpre⟩
  · exact h
  · rw [overlapsB, Bool.or_eq_false_iff] at hov
    rw [decide_eq_false_iff_not] at hov
    exact absurd h hov.1
  · rw [overlapsB, Bool.or_eq_false_iff] at hov
    have hmem : l₂ ∈ l.tails := (List.mem_tails l₂ l).mpr ⟨l₁, hl.symm⟩
    have hall := List.any_eq_false.mp hov.2 l₂ hmem
    have hpref : List.isPrefixOf l₂ k = true :=
      List.isPrefixOf_iff_prefix.mpr hpre
    have hempty : l₂.isEmpty = false := by
      cases l₂ with
      | nil => exact absurd rfl hne
      | cons x xs => rfl
    rw [hempty, hpref] at hall
    simp at hall

/-- Without boundary overlap, Python's substring test is unchanged by
appending `k`. -/
lemma pyIn_append_of_no_overlap (l t k : Str) (hov : overlapsB l k = false) :
    pyIn l (t ++ k) = pyIn l t := by
  by_cases h : l <:+: t
  · simp [pyIn, h, IsInfix.append_right k h]
  · have h2 : ¬ l <:+: t ++ k :=
      fun hinf => h (infix_of_infix_append_of_no_overlap hov hinf)
    simp [pyIn, h, h2]

/-- Number of high-impact keywords present in a text. -/
def highCount (text : Str) : Nat :=
  high_keywords.countP (fun kw => pyIn kw text)

/-- Number of medium-impact keywords present in a text. -/
def mediumCount (text : Str) : Nat :=
  medium_keywords.countP (fun kw => pyIn kw text)

/-- Number of low-impact keywords present in a text. -/
def lowCount (text : Str) : Nat :=
  low_keywords.countP (fun kw => pyIn kw text)

/-- The per-keyword bonus loop of `_fallback_importance` adds the bonus
once per matching keyword. -/
lemma foldl_if_add (keywords : List Str) (text : Str) (c : ℚ) :
    ∀ init : ℚ,
      keywords.foldl (fun s kw => if pyIn kw text then s + c else s) init =
        init + c * (keywords.countP (fun kw => pyIn kw text) : ℚ) := by
  induction keywords with
  | nil => intro init; simp
  | cons kw rest ih =>
    intro init
    rw [List.foldl_cons, List.countP_cons]
    by_cases h : pyIn kw text
    · rw [if_pos h, ih, if_pos (by rw [h])]
      push_cast
      ring
    · rw [if_neg h, ih, if_neg (by rw [Bool.not_eq_true] at h; rw [h]; simp)]
      push_cast
      ring

/-- The per-keyword malus loop of `_fallback_importance` subtracts the
malus once per matching keyword. -/
lemma foldl_if_sub (keywords : List Str) (text : Str) (c : ℚ) :
    ∀ init : ℚ,
      keywords.foldl (fun s kw => if pyIn kw text then s - c else s) init =
        init - c * (keywords.countP (fun kw => pyIn kw text) : ℚ) := by
  induction keywords with
  | nil => intro init; simp
  | cons kw rest ih =>
    intro init
    rw [List.foldl_cons, List.countP_cons]
    by_cases h : pyIn kw text
    · rw [if_pos h, ih, if_pos (by rw [h])]
      push_cast
      ring
    · rw [if_neg h, ih, if_neg (by rw [Bool.not_eq_true] at h; rw [h]; simp)]
      push_cast
      ring

/-- The keyword-weighted score of an (already lowered) text. -/
def importanceOfText (text : Str) : ℚ :=
  min (max (1/2 + (1/10) * (highCount text : ℚ) +
    (1/20) * (mediumCount text : ℚ) - (1/10) * (lowCount text : ℚ)) 0) 1

/-- `_fallback_importance` in closed form: base 0.5 plus 0.1 per
high-impact match plus 0.05 per medium-impact match minus 0.1 per
low-impact match, clamped. -/
lemma fallbackImportance_eq (title content : Str) :
    fallbackImportance title content =
      importanceOfText (pyLower (title ++ [' '] ++ content)) := by
  simp only [fallbackImportance, importanceOfText]
  rw [foldl_if_add, foldl_if_add, foldl_if_sub]
  rfl

/-- Appending text never removes a keyword match. -/
lemma countP_pyIn_le_append (keywords : List Str) (t k : Str) :
    keywords.countP (fun kw => pyIn kw t) ≤
      keywords.countP (fun kw => pyIn kw (t ++ k)) :=
  List.countP_mono_left (fun _ _ h =>
    decide_eq_true (IsInfix.append_right k (of_decide_eq_true h)))

/-- No low-impact keyword overlaps the boundary with any high-impact
keyword, so appending a high-impact keyword leaves the low-impact count
unchanged. -/
lemma lowCount_append_high (t k : Str) (hk : k ∈ high_keywords) :
    lowCount (t ++ k) = lowCount t := by
  have hov : ∀ l ∈ low_keywords, ∀ kw ∈ high_keywords,
      overlapsB l kw = false := by decide
  exact countP_congr_mem
    (fun l hl => pyIn_append_of_no_overlap l t k (hov l hl k hk))

/-- Monotonicity at the text level: appending one high-impact keyword
never lowers the keyword-weighted score. -/
lemma importanceOfText_mono_high (text k : Str) (hk : k ∈ high_keywords) :
    importanceOfText text ≤ importanceOfText (text ++ k) := by
  unfold importanceOfText
  apply clamp01_mono
  have h1 : (highCount text : ℚ) ≤ (highCount (text ++ k) : ℚ) := by
    exact_mod_cast countP_pyIn_le_append high_keywords text k
  have h2 : (mediumCount text : ℚ) ≤ (mediumCount (text ++ k) : ℚ) := by
    exact_mod_cast countP_pyIn_le_append medium_keywords text k
  have h3 : (lowCount (text ++ k) : ℚ) = (lowCount text : ℚ) := by
    exact_mod_cast congrArg (Nat.cast (R := ℚ)) (lowCount_append_high text k hk)
  linarith

/-- C6.  Appending one more high-impact keyword to otherwise-identical
text never decreases the fallback importance score (the clamp into
[0, 1] preserves the inequality). -/
theorem fallback_importance_monotone (title content k : Str)
    (hk : k ∈ high_keywords) :
    fallbackImportance title content ≤
      fallbackImportance title (content ++ k) := by
  have hlowk : pyLower k = k := by
    have hall : ∀ kw ∈ high_keywords, pyLower kw = kw := by decide
    exact hall k hk
  have htext : pyLower (title ++ [' '] ++ (content ++ k)) =
      pyLower (title ++ [' '] ++ content) ++ k := by
    unfold pyLower
    rw [← List.append_assoc, List.map_append]
    unfold pyLower at hlowk
    rw [hlowk]
  rw [fallbackImportance_eq, fallbackImportance_eq, htext]
  exact importanceOfText_mono_high (pyLower (title ++ [' '] ++ content)) k hk

/-- C6 witness: appending the high-impact keyword "fda" to a concrete
text does not lower its score. -/
theorem fallback_importance_monotone_witness :
    fallbackImportance (str "임상 결과") (str "내용") ≤
      fallbackImportance (str "임상 결과") (str "내용" ++ str "fda") :=
  fallback_importance_monotone (str "임상 결과") (str "내용") (str "fda")
    (by decide)

/-! ## C9: persisted content hash versus dedup fingerprint

The persisted hash (`NewsArticle.__post_init__`,
`ArticleRepository.create`) hashes the raw concatenation; the dedup
fingerprint hashes the trimmed, case-folded concatenation.  They agree
whenever the concatenation is already normalized; on the concrete
non-normalized pair ("Title", "Desc") the two SHA-256 digests are
computed and differ.  (That they differ for every non-normalized input
is SHA-256 collision-freeness on a family of pairs and is neither
provable nor refutable.) -/

/-- If the concatenated text is already trimmed and lower-case, the
persisted content hash and the dedup fingerprint coincide. -/
theorem persisted_hash_eq_of_normalized (title description : Str)
    (h : pyLower (pyStrip (title ++ description)) = title ++ description) :
    persistedContentHash title description = compute_hash title description := by
  unfold persistedContentHash compute_hash
  rw [h]

set_option maxRecDepth 10000 in
/-- On the non-normalized pair ("Title", "Desc") the persisted content
hash and the dedup fingerprint differ (both SHA-256 digests computed). -/
theorem persisted_hash_ne_concrete :
    persistedContentHash (str "Title") (str "Desc") ≠
      compute_hash (str "Title") (str "Desc") := by
  decide

end HealthPulse
